import Mathlib

/-!
Verification development for the smcr layer-7 TCP router.

The definitions below are a shallow embedding of the Go sources:

* internal/protocol/read_writer.go  — byte codec (bufReadWriterImpl)
* internal/protocol/packet.go       — packet layer (modern + legacy handshake)
* internal/config/config.go         — route table preparation (Config.Init)
* internal/router/connection.go     — RouteFor, resolveTarget, disconnect path,
                                      proxy-protocol preamble decision
* internal/dns/srv.go               — ResolveSrv

Machine integers are modelled by their unsigned bit patterns as Nat with
explicit reductions modulo 2^32 / 2^16 where Go overflow semantics matter;
signed readings of a pattern are recovered with toInt32 / toInt16.
Byte streams are lists of Nat (each element a byte value).  Go runtime
panics (for example make with a negative length) are modelled by an
explicit GoResult.crash outcome, distinct from an ordinary error return.
-/

/-- Signed reading of a 32-bit pattern, as in a Go int32 to int conversion. -/
def toInt32 (pat : Nat) : Int :=
  if pat % 4294967296 < 2147483648 then ((pat % 4294967296 : Nat) : Int)
  else ((pat % 4294967296 : Nat) : Int) - 4294967296

/-- Signed reading of a 16-bit pattern, as in a Go int16 to int conversion. -/
def toInt16 (pat : Nat) : Int :=
  if pat % 65536 < 32768 then ((pat % 65536 : Nat) : Int)
  else ((pat % 65536 : Nat) : Int) - 65536

/-- Outcome of a Go code path: a normal return, an error return, or a
runtime panic (which in Go would crash the whole process, since the router
installs no recover handler). -/
inductive GoResult (α : Type) where
  | ok (a : α)
  | err
  | crash
deriving DecidableEq

/-- State of bufReadWriterImpl (read_writer.go): the unread suffix of the
underlying byte stream, the one-byte peek buffer, and the readLen counter. -/
structure BufState where
  stream : List Nat
  peeked : Option Nat
  readLen : Int
deriving DecidableEq

/-- The private bufReadWriterImpl.read (read_writer.go lines 115-125):
make a buffer of n bytes and fill it with io.ReadFull.  A negative n makes
the Go expression make([]byte, n) panic; a short stream is an error. -/
def rawRead (n : Int) (stream : List Nat) : GoResult (List Nat × List Nat) :=
  if n < 0 then .crash
  else if stream.length < n.toNat then .err
  else .ok (stream.take n.toNat, stream.drop n.toNat)

/-- PeekByte (read_writer.go lines 84-94). -/
def bufPeekByte (s : BufState) : GoResult (Nat × BufState) :=
  match s.peeked with
  | some b => .ok (b, s)
  | none =>
    match rawRead 1 s.stream with
    | .ok (b, rest) => .ok (b.headD 0, ⟨rest, some (b.headD 0), s.readLen⟩)
    | .err => .err
    | .crash => .crash

/-- Read (read_writer.go lines 96-113): consume the peek buffer first, then
read the remaining bytes; readLen advances by the requested n either way. -/
def bufRead (n : Int) (s : BufState) : GoResult (List Nat × BufState) :=
  match s.peeked with
  | some pb =>
    match rawRead (n - 1) s.stream with
    | .ok (b, rest) => .ok (pb :: b, ⟨rest, none, s.readLen + n⟩)
    | .err => .err
    | .crash => .crash
  | none =>
    match rawRead n s.stream with
    | .ok (b, rest) => .ok (b, ⟨rest, none, s.readLen + n⟩)
    | .err => .err
    | .crash => .crash

/-- ReadUInt8 (read_writer.go lines 139-145). -/
def readUInt8 (s : BufState) : GoResult (Nat × BufState) :=
  match bufRead 1 s with
  | .ok (b, s1) => .ok (b.headD 0, s1)
  | .err => .err
  | .crash => .crash

/-- ReadUInt16 (read_writer.go lines 151-157): two bytes, big endian. -/
def readUInt16 (s : BufState) : GoResult (Nat × BufState) :=
  match bufRead 2 s with
  | .ok (b, s1) => .ok (b.getD 0 0 * 256 + b.getD 1 0, s1)
  | .err => .err
  | .crash => .crash

/-- ReadInt16 (read_writer.go lines 165-171) returns the same 16-bit pattern
as ReadUInt16; signedness only matters at use sites (via toInt16). -/
def readInt16 (s : BufState) : GoResult (Nat × BufState) :=
  readUInt16 s

/-- ReadUInt32 (read_writer.go lines 177-183): four bytes, big endian. -/
def readUInt32 (s : BufState) : GoResult (Nat × BufState) :=
  match bufRead 4 s with
  | .ok (b, s1) =>
    .ok (b.getD 0 0 * 16777216 + b.getD 1 0 * 65536 + b.getD 2 0 * 256 + b.getD 3 0, s1)
  | .err => .err
  | .crash => .crash

/-- ReadInt32 (read_writer.go lines 191-197) returns the same 32-bit pattern
as ReadUInt32. -/
def readInt32 (s : BufState) : GoResult (Nat × BufState) :=
  readUInt32 s

/-- Loop body of ReadVarInt (read_writer.go lines 203-223).  The
accumulator value holds the uint32 bit pattern of the Go int32 variable;
the Go expression int32(b&0x7F) << position wraps modulo 2^32. -/
def readVarIntAux (s : BufState) (value : Nat) (position : Nat) :
    GoResult (Nat × BufState) :=
  match bufRead 1 s with
  | .err => .err
  | .crash => .crash
  | .ok (b, s1) =>
    let byte := b.headD 0
    let value := value ||| ((byte &&& 0x7F) <<< position) % 4294967296
    if byte &&& 0x80 = 0 then .ok (value, s1)
    else if position + 7 ≥ 32 then .err
    else readVarIntAux s1 value (position + 7)
termination_by 32 - position
decreasing_by omega

/-- ReadVarInt (read_writer.go lines 203-223). -/
def readVarInt (s : BufState) : GoResult (Nat × BufState) :=
  readVarIntAux s 0 0

/-- ReadString (read_writer.go lines 240-252): var-int length prefix, then
that many raw bytes.  Go returns the bytes as a string without validation;
they are kept as a byte list here. -/
def readString (s : BufState) : GoResult (List Nat × BufState) :=
  match readVarInt s with
  | .ok (lenPat, s1) =>
    match bufRead (toInt32 lenPat) s1 with
    | .ok (b, s2) => .ok (b, s2)
    | .err => .err
    | .crash => .crash
  | .err => .err
  | .crash => .crash

/-- Decoding loop of Go unicode/utf16.Decode, as used by ReadUTF16BE:
a well-formed surrogate pair combines, anything else in the surrogate
range becomes U+FFFD, and other code units map to themselves. -/
def utf16DecodeList : List Nat → List Char
  | [] => []
  | [u] =>
    if u < 0xD800 ∨ 0xE000 ≤ u then [Char.ofNat u] else [Char.ofNat 0xFFFD]
  | u :: v :: rest =>
    if u < 0xD800 ∨ 0xE000 ≤ u then Char.ofNat u :: utf16DecodeList (v :: rest)
    else if u < 0xDC00 ∧ 0xDC00 ≤ v ∧ v < 0xE000 then
      Char.ofNat (0x10000 + (u - 0xD800) * 0x400 + (v - 0xDC00)) ::
        utf16DecodeList rest
    else Char.ofNat 0xFFFD :: utf16DecodeList (v :: rest)

/-- Big-endian 16-bit grouping done by the binary.Read loop inside
ReadUTF16BE; the buffer handed to it always has even length there. -/
def toU16Pairs : List Nat → List Nat
  | a :: b :: rest => (a * 256 + b) :: toU16Pairs rest
  | _ => []

/-- ReadUTF16BE (read_writer.go lines 262-284): an i16 prefix strLen, then
strLen*2 bytes decoded as UTF-16BE.  The Go index expression strLen * 2 is
16-bit arithmetic (it wraps), and its signed value is what reaches Read. -/
def readUTF16BE (s : BufState) : GoResult (String × BufState) :=
  match readInt16 s with
  | .ok (strLenPat, s1) =>
    match bufRead (toInt16 (strLenPat * 2 % 65536)) s1 with
    | .ok (buf, s2) =>
      if buf.length % 2 = 1 then .err
      else .ok (String.mk (utf16DecodeList (toU16Pairs buf)), s2)
    | .err => .err
    | .crash => .crash
  | .err => .err
  | .crash => .crash

/-- Bytes produced by WriteUInt8: byte(value). -/
def writeUInt8Bytes (value : Nat) : List Nat :=
  [value % 256]

/-- Bytes produced by WriteUInt16 (read_writer.go lines 159-163):
binary.BigEndian.PutUint16. -/
def writeUInt16Bytes (value : Nat) : List Nat :=
  [value % 65536 / 256, value % 256]

/-- Bytes produced by WriteInt16 (read_writer.go lines 173-175), which is
WriteUInt16(uint16(value)) on the same 16-bit pattern. -/
def writeInt16Bytes (value : Nat) : List Nat :=
  writeUInt16Bytes (value % 65536)

/-- Bytes produced by WriteUInt32 (read_writer.go lines 185-189):
binary.BigEndian.PutUint32. -/
def writeUInt32Bytes (value : Nat) : List Nat :=
  [value % 4294967296 / 16777216, value % 16777216 / 65536,
   value % 65536 / 256, value % 256]

/-- Bytes produced by WriteVarInt (read_writer.go lines 225-238).  The
argument is the uint32 bit pattern of the Go int32 value.  The Go loop
guard value & ^0x7F == 0 is the mask test against 0xFFFFFF80, the byte
written is uint8(value), and the update int32(uint32(value) >> 7) is the
logical right shift on the pattern. -/
def writeVarIntBytes (value : Nat) : List Nat :=
  if value &&& 0xFFFFFF80 = 0 then [value % 256]
  else ((value &&& 0x7F) ||| 0x80) :: writeVarIntBytes (value >>> 7)
termination_by value
decreasing_by
  simp only [Nat.shiftRight_eq_div_pow]
  have hvz : value ≠ 0 := by
    intro h
    subst h
    simp_all
  omega

/-- Bytes produced by WriteString (read_writer.go lines 254-260) on a raw
byte string: WriteVarInt(int32(len(s))) then the bytes themselves. -/
def writeStringBytes (s : List Nat) : List Nat :=
  writeVarIntBytes (s.length % 4294967296) ++ s

/-- Go unicode/utf16.Encode on one rune.  Lean Char values are Unicode
scalars, so the surrogate-replacement branch of the Go encoder cannot
trigger and is omitted. -/
def utf16EncodeChar (c : Char) : List Nat :=
  let v := c.toNat
  if v < 0x10000 then [v]
  else [0xD800 + (v - 0x10000) / 0x400, 0xDC00 + (v - 0x10000) % 0x400]

/-- Go unicode/utf16.Encode([]rune(s)): the UTF-16 code units of s. -/
def utf16Encode (s : String) : List Nat :=
  s.data.flatMap utf16EncodeChar

/-- Bytes produced by WriteUTF16BE (read_writer.go lines 286-304): the
code units written big-endian into a buffer b, then WriteInt16(int16(len(b)))
— the BYTE length of the payload — followed by b itself. -/
def writeUTF16BEBytes (s : String) : List Nat :=
  let b := (utf16Encode s).flatMap (fun u => [u % 65536 / 256, u % 256])
  writeInt16Bytes b.length ++ b

/-- Go UTF-8 encoding of one scalar, as in []byte(string). -/
def utf8EncodeChar (c : Char) : List Nat :=
  let v := c.toNat
  if v < 0x80 then [v]
  else if v < 0x800 then [0xC0 + v / 64, 0x80 + v % 64]
  else if v < 0x10000 then [0xE0 + v / 4096, 0x80 + v / 64 % 64, 0x80 + v % 64]
  else [0xF0 + v / 262144, 0x80 + v / 4096 % 64, 0x80 + v / 64 % 64, 0x80 + v % 64]

/-- Go conversion []byte(s): the UTF-8 bytes of a string. -/
def strBytes (s : String) : List Nat :=
  s.data.flatMap utf8EncodeChar

/-- HandshakePacket (packet.go lines 37-42).  Fields protocol and
nextState hold uint32 bit patterns of the Go int32 fields; hostname is the
raw byte string exactly as read by ReadString. -/
structure HandshakePacket where
  protocol : Nat
  hostname : List Nat
  port : Nat
  nextState : Nat
deriving DecidableEq

/-- LegacyServerListPingPacket (packet.go lines 96-101).  The hostname is
the decoded string produced by ReadUTF16BE. -/
structure LegacyServerListPingPacket where
  header : List Nat
  protocol : Nat
  hostname : String
  port : Nat
deriving DecidableEq

/-- The IHandshakePacket interface (packet.go lines 29-34) with its two
implementations, as a tagged variant. -/
inductive IHandshakePacket where
  | modern (p : HandshakePacket)
  | legacy (p : LegacyServerListPingPacket)
deriving DecidableEq

/-- IsLegacy (packet.go lines 47-49 and 113-115). -/
def IHandshakePacket.isLegacy : IHandshakePacket → Bool
  | .modern _ => false
  | .legacy _ => true

/-- The 27-byte legacy magic (packet.go lines 103-109). -/
def legacyServerPingHead : List Nat :=
  [0xFE, 0x01, 0xFA, 0x00, 0x0B,
   0x00, 0x4D, 0x00, 0x43, 0x00, 0x7C, 0x00, 0x50, 0x00, 0x69,
   0x00, 0x6E, 0x00, 0x67, 0x00, 0x48, 0x00, 0x6F, 0x00, 0x73, 0x00, 0x74]

/-- Constants from packet.go lines 9-17. -/
def HandShakePacketId : Nat := 0x00

/-- DisconnectPacketId (packet.go line 11). -/
def DisconnectPacketId : Nat := 0x00

/-- HandshakeNextStateLogin (packet.go line 14). -/
def HandshakeNextStateLogin : Nat := 2

/-- The legacy magic byte 0xFE (packet.go line 16). -/
def legacyHandshakeMagic : Nat := 0xFE

/-- HandshakePacket.ReadFrom (packet.go lines 61-76): protocol var-int,
hostname string, port u16, next-state var-int. -/
def HandshakePacket.readFrom (s : BufState) :
    GoResult (HandshakePacket × BufState) :=
  match readVarInt s with
  | .ok (protocol, s1) =>
    match readString s1 with
    | .ok (hostname, s2) =>
      match readUInt16 s2 with
      | .ok (port, s3) =>
        match readVarInt s3 with
        | .ok (nextState, s4) => .ok (⟨protocol, hostname, port, nextState⟩, s4)
        | .err => .err
        | .crash => .crash
      | .err => .err
      | .crash => .crash
    | .err => .err
    | .crash => .crash
  | .err => .err
  | .crash => .crash

/-- Bytes produced by HandshakePacket.WriteTo (packet.go lines 78-92). -/
def HandshakePacket.writeToBytes (p : HandshakePacket) : List Nat :=
  writeVarIntBytes (p.protocol % 4294967296) ++
  writeStringBytes p.hostname ++
  writeUInt16Bytes p.port ++
  writeVarIntBytes (p.nextState % 4294967296)

/-- LegacyServerListPingPacket.ReadFrom (packet.go lines 123-151): the
27-byte header compared against the magic, an ignored i16 remaining
length, a u8 protocol, a UTF-16BE hostname, and an i32 port that must lie
in [0, 65535]. -/
def LegacyServerListPingPacket.readFrom (s : BufState) :
    GoResult (LegacyServerListPingPacket × BufState) :=
  match bufRead 27 s with
  | .ok (header, s1) =>
    if header ≠ legacyServerPingHead then .err
    else
      match readInt16 s1 with
      | .ok (_, s2) =>
        match readUInt8 s2 with
        | .ok (protocol, s3) =>
          match readUTF16BE s3 with
          | .ok (hostname, s4) =>
            match readInt32 s4 with
            | .ok (portPat, s5) =>
              if toInt32 portPat < 0 ∨ toInt32 portPat > 65535 then .err
              else .ok (⟨header, protocol, hostname, (toInt32 portPat).toNat⟩, s5)
            | .err => .err
            | .crash => .crash
          | .err => .err
          | .crash => .crash
        | .err => .err
        | .crash => .crash
      | .err => .err
      | .crash => .crash
  | .err => .err
  | .crash => .crash

/-- Bytes produced by LegacyServerListPingPacket.WriteTo (packet.go lines
153-184): the captured header, then an i16 holding the byte length of the
re-encoded body (u8 protocol, UTF-16BE hostname, i32 port), then that
body. -/
def LegacyServerListPingPacket.writeToBytes (p : LegacyServerListPingPacket) :
    List Nat :=
  let b := writeUInt8Bytes p.protocol ++ writeUTF16BEBytes p.hostname ++
           writeUInt32Bytes p.port
  p.header ++ writeInt16Bytes b.length ++ b

/-- ReadModernPacket (part of the packet layer) specialised to the
handshake packet factory used by ReadHandshakePacket: read the outer
var-int length, read that many body bytes (int(packetLen), which panics
in Go when the signed value is negative), parse the body, and require the
body read counter to equal the declared length. -/
def readModernHandshake (s : BufState) : GoResult (HandshakePacket × BufState) :=
  match readVarInt s with
  | .ok (packetLen, s1) =>
    match bufRead (toInt32 packetLen) s1 with
    | .ok (packetBody, s2) =>
      match readVarInt ⟨packetBody, none, 0⟩ with
      | .ok (packetId, b1) =>
        if toInt32 packetId ≠ (HandShakePacketId : Int) then .err
        else
          match HandshakePacket.readFrom b1 with
          | .ok (packet, b2) =>
            if b2.readLen ≠ toInt32 packetLen then .err
            else .ok (packet, s2)
          | .err => .err
          | .crash => .crash
      | .err => .err
      | .crash => .crash
    | .err => .err
    | .crash => .crash
  | .err => .err
  | .crash => .crash

/-- ReadHandshakePacket (packet layer): peek one byte, dispatch on the
legacy magic, otherwise parse a modern handshake. -/
def readHandshakePacket (s : BufState) : GoResult (IHandshakePacket × BufState) :=
  match bufPeekByte s with
  | .ok (head, s1) =>
    if head = legacyHandshakeMagic then
      match LegacyServerListPingPacket.readFrom s1 with
      | .ok (p, s2) => .ok (.legacy p, s2)
      | .err => .err
      | .crash => .crash
    else
      match readModernHandshake s1 with
      | .ok (p, s2) => .ok (.modern p, s2)
      | .err => .err
      | .crash => .crash
  | .err => .err
  | .crash => .crash

/-- Bytes produced by WritePacket (packet layer) on a modern packet with
the given id: the body is the var-int id followed by the field bytes, and
the wire form is WriteVarInt(int32(len(body))) followed by the body. -/
def writeModernPacketBytes (packetId : Nat) (fieldBytes : List Nat) : List Nat :=
  let packetBody := writeVarIntBytes packetId ++ fieldBytes
  writeVarIntBytes (packetBody.length % 4294967296) ++ packetBody

/-- WritePacket (packet layer) applied to a handshake value: a modern
packet goes through the modern framing, while a legacy packet is handed to
LegacyServerListPingPacket.WriteTo unchanged. -/
def writePacketBytes : IHandshakePacket → List Nat
  | .modern p => writeModernPacketBytes HandShakePacketId p.writeToBytes
  | .legacy p => p.writeToBytes

/-- Bytes produced by WritePacket on a DisconnectPacket (packet.go lines
186-210): modern framing of packet id 0 and one string field holding the
reason text. -/
def disconnectPacketBytes (reason : String) : List Nat :=
  writeModernPacketBytes DisconnectPacketId (writeStringBytes (strBytes reason))

/-- Go strings.ToLower restricted to the ASCII case mapping (all strings
handled by the router configuration and theorems below are ASCII). -/
def strToLower (s : String) : String :=
  String.mk (s.data.map Char.toLower)

/-- Go strings.TrimRight(hostname, ".") as used by RouteFor: remove every
trailing dot. -/
def trimRightDots (s : String) : String :=
  String.mk (s.data.reverse.dropWhile (fun c => c = '.')).reverse

/-- Go fmt.Sprintf with format %s:%d, joining a hostname and a port. -/
def mkAddress (hostname : String) (port : Nat) : String :=
  hostname ++ ":" ++ toString port

/-- RouteAction (config.go lines 14-19). -/
inductive RouteAction where
  | Forward
  | Reject
deriving DecidableEq

/-- Route (config.go lines 21-41).  The timeout is a duration in
nanoseconds; rejectMessageJson and dialFailMessageJson are the
precomputed JSON forms filled in by Config.Init. -/
structure Route where
  Name : String
  Matches : List String
  Action : RouteAction
  Target : String
  Mimic : String
  Timeout : Nat
  DialFailMessage : String
  ProxyProtocol : Nat
  RejectMessage : String
  rejectMessageJson : String
  dialFailMessageJson : String
deriving DecidableEq

/-- DefaultRouteName (config.go line 12). -/
def DefaultRouteName : String := "default"

/-- A Go map[string]*Route is modelled as the list of insertions in
program order; a lookup returns the value of the latest insertion for the
key, which is exactly the overwrite semantics of the Go map. -/
def mapLookup (m : List (String × Route)) (k : String) : Option Route :=
  (m.reverse.find? (fun p => p.1 = k)).map (fun p => p.2)

/-- One iteration of the match-insertion loop in Config.Init (config.go
lines 152-158): every match string is lowercased and bound to the route,
overwriting any previous binding (the Go code only warns on collision). -/
def insertRoute (m : List (String × Route)) (route : Route) :
    List (String × Route) :=
  route.Matches.foldl (fun m addr => m ++ [(strToLower addr, route)]) m

/-- The gather step of Config.Init (config.go lines 141-160): a route
named default becomes the default route (its matches are ignored), every
other route contributes its lowercased matches to the route map. -/
def gatherRoutes (routes : List Route) :
    List (String × Route) × Option Route :=
  routes.foldl
    (fun acc route =>
      if route.Name = DefaultRouteName then (acc.1, some route)
      else (insertRoute acc.1 route, acc.2))
    ([], none)

/-- The prepared dispatch state of Config (config.go lines 51-52):
routeMap and defaultRoute as built by Config.Init. -/
structure Config where
  routeMap : List (String × Route)
  defaultRoute : Option Route
deriving DecidableEq

/-- Config.Init restricted to its gather step (config.go lines 141-160),
producing the prepared dispatch state from the configured route list. -/
def Config.init (routes : List Route) : Config :=
  ⟨(gatherRoutes routes).1, (gatherRoutes routes).2⟩

/-- RouteFor (connection.go lines 242-263): trim every trailing dot from
the hostname, look up the lowercased host:port key, then the lowercased
host key, then fall back to the default route. -/
def RouteFor (cfg : Config) (hostname : String) (port : Nat) : Option Route :=
  let hostname := trimRightDots hostname
  let address := mkAddress hostname port
  match mapLookup cfg.routeMap (strToLower address) with
  | some route => some route
  | none =>
    match mapLookup cfg.routeMap (strToLower hostname) with
    | some route => some route
    | none => cfg.defaultRoute

/-- An SRV answer record (net.SRV): target host and port. -/
structure SrvRecord where
  target : String
  port : Nat
deriving DecidableEq

/-- ResolveSrv (internal/dns, part_002 lines 10-23), parameterised by the
outcome of the external net.DefaultResolver.LookupSRV call: a resolver
error propagates, an empty answer is an error, otherwise the first record
is formatted as target:port. -/
def ResolveSrv (lookup : Except String (List SrvRecord)) :
    Except String String :=
  match lookup with
  | .error e => .error e
  | .ok [] => .error "srv has empty result"
  | .ok (rec :: _) => .ok (rec.target ++ ":" ++ toString rec.port)

/-- resolveTarget (connection.go lines 265-279), parameterised by the SRV
lookup outcome: a target containing a colon is returned verbatim without
any lookup; otherwise a successful SRV resolution is returned, and any
SRV failure falls back to target:25565.  Both return paths carry a nil
error, so the Except value is always ok. -/
def resolveTarget (route : Route) (lookup : Except String (List SrvRecord)) :
    Except String String :=
  if ¬ route.Target.data.contains ':' then
    match ResolveSrv lookup with
    | .ok resolved => .ok resolved
    | .error _ => .ok (route.Target ++ ":25565")
  else .ok route.Target

/-- proxyproto.AddressFamilyAndProtocol values used by handleConnection;
UNSPEC is the Go zero value of the type. -/
inductive AddressFamilyAndProtocol where
  | UNSPEC
  | TCPv4
  | TCPv6
deriving DecidableEq

/-- The proxyproto.Header value built by handleConnection (connection.go
lines 165-179), reduced to the fields the routing code decides. -/
structure ProxyHeader where
  version : Nat
  transport : AddressFamilyAndProtocol
deriving DecidableEq

/-- The preamble decision in handleConnection (connection.go lines
152-184): when the route's proxy_protocol version is 1 or 2 a header is
built and its write to the upstream attempted (none here means the whole
block is skipped and nothing is ever written).  When the client and
target address families differ, the code logs an error but leaves the
transport protocol at its zero value UNSPEC and still attempts the
write. -/
def preambleHeader (proxyProtocol : Nat) (clientIs4 targetIs4 : Bool) :
    Option ProxyHeader :=
  if 1 ≤ proxyProtocol ∧ proxyProtocol ≤ 2 then
    let transportProtocol :=
      if clientIs4 && targetIs4 then AddressFamilyAndProtocol.TCPv4
      else if !clientIs4 && !targetIs4 then AddressFamilyAndProtocol.TCPv6
      else AddressFamilyAndProtocol.UNSPEC
    some ⟨proxyProtocol, transportProtocol⟩
  else none

/-- Result of the disconnectWithMessage closure (connection.go lines
78-94): the disconnect packet bytes written to the client (none when
emission is skipped), and whether the client connection was closed.  The
closure ends with an unconditional closeClientConn(). -/
structure DisconnectOutcome where
  sentPacket : Option (List Nat)
  clientClosed : Bool
deriving DecidableEq

/-- disconnectWithMessage (connection.go lines 78-94): the packet is
emitted only when the handshake is the modern variant, its next-state is
the login discriminator, and the precomputed message JSON is non-empty;
the client is closed in every case. -/
def disconnectWithMessage (handshakePacket : IHandshakePacket)
    (messageJson : String) : DisconnectOutcome :=
  match handshakePacket with
  | .modern pkg =>
    if pkg.nextState = HandshakeNextStateLogin ∧ messageJson ≠ "" then
      ⟨some (disconnectPacketBytes messageJson), true⟩
    else ⟨none, true⟩
  | .legacy _ => ⟨none, true⟩

/-- The reject path of handleConnection (connection.go lines 122-126)
calls disconnectWithMessage with the precomputed reject message JSON. -/
def rejectPathOutcome (handshakePacket : IHandshakePacket) (route : Route) :
    DisconnectOutcome :=
  disconnectWithMessage handshakePacket route.rejectMessageJson

/-- The dial-failure path of handleConnection (connection.go lines
140-144) calls disconnectWithMessage with the precomputed dial-fail
message JSON. -/
def dialFailPathOutcome (handshakePacket : IHandshakePacket) (route : Route) :
    DisconnectOutcome :=
  disconnectWithMessage handshakePacket route.dialFailMessageJson

/-- Lookup following the words of the specification for duplicate match
handling: the key selects the route appearing latest in configuration
order among the non-default routes whose lowercased matches contain the
key.  Defined for comparison against the table built by Config.Init. -/
def specLastWinsLookup (routes : List Route) (key : String) : Option Route :=
  routes.reverse.find? (fun r =>
    !(r.Name == DefaultRouteName) && (r.Matches.map strToLower).contains key)

/-- Hostname normalization following the words of the specification:
strip exactly one trailing dot if present.  Defined for comparison with
trimRightDots, which is what RouteFor actually does. -/
def specStripOneTrailingDot (s : String) : String :=
  if s.data.getLast? = some '.' then String.mk s.data.dropLast else s

/-- Example route with an exact host:port match, for concrete lookups. -/
def routeA : Route :=
  ⟨"A", ["MC.Example.Com:25565"], .Forward, "127.0.0.1:25565", "", 3000000000,
   "", 0, "", "", ""⟩

/-- Example route with a host-only match on the same host as routeA. -/
def routeB : Route :=
  ⟨"B", ["mc.example.com"], .Forward, "127.0.0.1:25566", "", 3000000000,
   "", 0, "", "", ""⟩

/-- Example default route. -/
def routeD : Route :=
  ⟨"default", [], .Forward, "127.0.0.1:25567", "", 3000000000, "", 0, "", "", ""⟩

/-- Example prepared configuration holding routeA, routeB and a default. -/
def cfgABD : Config := Config.init [routeB, routeA, routeD]

/-- Example route whose host-only match itself ends in a dot. -/
def routeDot : Route :=
  ⟨"dot", ["a."], .Forward, "127.0.0.1:25565", "", 3000000000, "", 0, "", "", ""⟩

/-- Prepared configuration holding only routeDot and no default. -/
def cfgDot : Config := Config.init [routeDot]

/-- Example reject route carrying a precomputed reject message. -/
def routeR : Route :=
  ⟨"R", ["bad.host:25565"], .Reject, "127.0.0.1:25565", "", 3000000000,
   "", 0, "no", "\"no\"", "\"down\""⟩

/-- Example forward route whose target has no port, for SRV resolution. -/
def routeSrv : Route :=
  ⟨"S", ["svc:25565"], .Forward, "svc.example.org", "", 3000000000,
   "", 0, "", "", ""⟩

/-- Example forward route whose target carries an explicit port. -/
def routePort : Route :=
  ⟨"P", ["p:25565"], .Forward, "10.0.0.1:25570", "", 3000000000,
   "", 0, "", "", ""⟩

/-- Concrete legacy server list ping as parsed from the wire: the magic
header, protocol 73, hostname example.com, port 25565. -/
def legacyPkt : LegacyServerListPingPacket :=
  ⟨legacyServerPingHead, 73, "example.com", 25565⟩

/-- Concrete modern handshake used to instantiate theorems. -/
def modernPkt : HandshakePacket :=
  ⟨763, [109, 99], 25565, 2⟩

/-! Helper lemmas: bit arithmetic for the var-int codec. -/

theorem lor_mul_pow_eq_add {a b p : Nat} (ha : a < 2 ^ p) :
    a ||| b * 2 ^ p = a + b * 2 ^ p := by
  apply Nat.eq_of_testBit_eq
  intro i
  rw [Nat.testBit_lor]
  rcases Nat.lt_or_ge i p with hip | hip
  · have h1 : (b * 2 ^ p).testBit i = false := by
      rw [Nat.mul_comm, Nat.testBit_mul_pow_two]
      simp [Nat.not_le.mpr hip]
    have h2 : (a + b * 2 ^ p).testBit i = a.testBit i := by
      rw [Nat.add_comm, Nat.mul_comm, Nat.testBit_mul_pow_two_add _ ha, if_pos hip]
    simp [h1, h2]
  · have h1 : a.testBit i = false :=
      Nat.testBit_eq_false_of_lt (lt_of_lt_of_le ha (Nat.pow_le_pow_right (by norm_num) hip))
    have h2 : (a + b * 2 ^ p).testBit i = b.testBit (i - p) := by
      rw [Nat.add_comm, Nat.mul_comm, Nat.testBit_mul_pow_two_add _ ha,
        if_neg (Nat.not_lt.mpr hip)]
    have h3 : (b * 2 ^ p).testBit i = b.testBit (i - p) := by
      rw [Nat.mul_comm, Nat.testBit_mul_pow_two]
      simp [hip]
    simp [h1, h2, h3]

theorem hi_mask_testBit (i : Nat) :
    (0xFFFFFF80 : Nat).testBit i = (decide (7 ≤ i) && decide (i < 32)) := by
  have h0 : (0xFFFFFF80 : Nat) = 2 ^ 7 * (2 ^ 25 - 1) + 0 := by norm_num
  rw [h0, Nat.testBit_mul_pow_two_add _ (by norm_num : (0:Nat) < 2 ^ 7)]
  rcases Nat.lt_or_ge i 7 with hi | hi
  · rw [if_pos hi]
    simp [Nat.zero_testBit, hi]
  · rw [if_neg (Nat.not_lt.mpr hi)]
    rw [Nat.testBit_two_pow_sub_one]
    simp [hi]
    omega

theorem and_hi_mask_eq_zero_iff {v : Nat} (hv : v < 2 ^ 32) :
    v &&& 0xFFFFFF80 = 0 ↔ v < 128 := by
  constructor
  · intro h
    by_contra hge
    have hge' : v ≥ 2 ^ 7 := by simpa using Nat.not_lt.mp hge
    obtain ⟨i, hi7, hbit⟩ := Nat.ge_two_pow_implies_high_bit_true hge'
    have hi32 : i < 32 := by
      by_contra hi32
      have hf : v.testBit i = false :=
        Nat.testBit_eq_false_of_lt
          (lt_of_lt_of_le hv (Nat.pow_le_pow_right (by norm_num) (Nat.not_lt.mp hi32)))
      simp [hf] at hbit
    have hbt : (v &&& 0xFFFFFF80).testBit i = true := by
      simp [Nat.testBit_and, hbit, hi_mask_testBit, hi7, hi32]
    rw [h] at hbt
    simp [Nat.zero_testBit] at hbt
  · intro h
    apply Nat.eq_of_testBit_eq
    intro i
    rw [Nat.testBit_and, Nat.zero_testBit, hi_mask_testBit]
    rcases Nat.lt_or_ge i 7 with hi | hi
    · simp [Nat.not_le.mpr hi]
    · have h7 : v < 2 ^ 7 := by simpa using h
      have hf : v.testBit i = false :=
        Nat.testBit_eq_false_of_lt
          (lt_of_lt_of_le h7 (Nat.pow_le_pow_right (by norm_num) hi))
      simp [hf]

theorem and_two_pow_eq_zero_of_lt {v k : Nat} (h : v < 2 ^ k) : v &&& 2 ^ k = 0 := by
  apply Nat.eq_of_testBit_eq
  intro i
  rw [Nat.testBit_and, Nat.zero_testBit]
  rcases eq_or_ne i k with rfl | hne
  · simp [Nat.testBit_eq_false_of_lt h]
  · have hk : (2 ^ k : Nat).testBit i = false := by
      rw [Nat.testBit_two_pow]
      simp only [decide_eq_false_iff_not]
      exact fun hk => hne hk.symm
    simp [hk]

theorem add_hi_and_128_ne_zero {a : Nat} (ha : a < 128) : (a + 128) &&& 128 ≠ 0 := by
  rw [show (128 : Nat) = 2 ^ 7 by norm_num]
  have ha7 : a < 2 ^ 7 := by norm_num; omega
  intro h0
  have hbit : (a + 2 ^ 7).testBit 7 = true := by
    rw [show a + 2 ^ 7 = 2 ^ 7 * 1 + a by ring, Nat.testBit_mul_pow_two_add _ ha7,
      if_neg (by omega)]
    simp
  have hbt : ((a + 2 ^ 7) &&& 2 ^ 7).testBit 7 = true := by
    rw [Nat.testBit_and, hbit, Nat.testBit_two_pow]
    simp
  rw [h0] at hbt
  simp [Nat.zero_testBit] at hbt

theorem add_hi_and_127 {a : Nat} (ha : a < 128) : (a + 128) &&& 127 = a := by
  rw [show (127 : Nat) = 2 ^ 7 - 1 by norm_num, Nat.and_pow_two_sub_one_eq_mod]
  norm_num [Nat.add_mod_right]
  omega

theorem bufRead_one_cons (x : Nat) (l : List Nat) (len : Int) :
    bufRead 1 ⟨x :: l, none, len⟩ = .ok ([x], ⟨l, none, len + 1⟩) := by
  simp [bufRead, rawRead]


theorem readVarIntAux_writeVarIntBytes (v : Nat) :
    ∀ (p acc : Nat) (rest : List Nat) (len : Int),
      p ≤ 32 → v < 2 ^ (32 - p) → acc < 2 ^ p →
      readVarIntAux ⟨writeVarIntBytes v ++ rest, none, len⟩ acc p
        = .ok (acc + v * 2 ^ p,
               ⟨rest, none, len + ((writeVarIntBytes v).length : Int)⟩) := by
  induction v using Nat.strong_induction_on with
  | _ v ih =>
    intro p acc rest len hple hv hacc
    have hv32 : v < 2 ^ 32 :=
      lt_of_lt_of_le hv (Nat.pow_le_pow_right (by norm_num) (by omega))
    rw [writeVarIntBytes]
    by_cases hm : v &&& 0xFFFFFF80 = 0
    · have hvl : v < 128 := (and_hi_mask_eq_zero_iff hv32).mp hm
      have hmod : v % 256 = v := Nat.mod_eq_of_lt (by omega)
      have hlt32 : v * 2 ^ p < 4294967296 := by
        have h1 : v * 2 ^ p < 2 ^ (32 - p) * 2 ^ p :=
          Nat.mul_lt_mul_of_pos_right hv (Nat.pos_pow_of_pos _ (by norm_num))
        rw [← Nat.pow_add] at h1
        have h2 : 32 - p + p = 32 := by omega
        rw [h2] at h1
        norm_num at h1
        exact h1
      have hand : v % 256 &&& 128 = 0 := by
        rw [hmod, show (128 : Nat) = 2 ^ 7 by norm_num]
        exact and_two_pow_eq_zero_of_lt (by norm_num; omega)
      have hval : acc ||| (v % 256 &&& 127) <<< p % 4294967296 = acc + v * 2 ^ p := by
        rw [hmod, show (127 : Nat) = 2 ^ 7 - 1 by norm_num,
          Nat.and_pow_two_sub_one_eq_mod, Nat.mod_eq_of_lt (show v < 2 ^ 7 by norm_num; omega),
          Nat.shiftLeft_eq, Nat.mod_eq_of_lt hlt32, lor_mul_pow_eq_add hacc]
      rw [if_pos hm, List.singleton_append, readVarIntAux, bufRead_one_cons]
      simp only [List.headD_cons, hand, hval, if_pos, List.length_singleton]
      norm_num
    · have hvge : 128 ≤ v :=
        Nat.le_of_not_lt fun hlt => hm ((and_hi_mask_eq_zero_iff hv32).mpr hlt)
      have hp25 : p < 25 := by
        by_contra hp25
        have hle : (2 : Nat) ^ (32 - p) ≤ 2 ^ 7 :=
          Nat.pow_le_pow_right (by norm_num) (by omega)
        norm_num at hle
        omega
      have hmod128 : v % 128 < 2 ^ 7 := by norm_num; exact Nat.mod_lt _ (by norm_num)
      have hbyte : (v &&& 127) ||| 128 = v % 128 + 128 := by
        rw [show (127 : Nat) = 2 ^ 7 - 1 by norm_num, Nat.and_pow_two_sub_one_eq_mod,
          show (128 : Nat) = 1 * 2 ^ 7 by norm_num, lor_mul_pow_eq_add hmod128]
        norm_num
      have handne := add_hi_and_128_ne_zero (a := v % 128) (Nat.mod_lt _ (by norm_num))
      have hshiftlt : v % 128 * 2 ^ p < 4294967296 := by
        have h1 : v % 128 * 2 ^ p < 2 ^ 7 * 2 ^ p :=
          Nat.mul_lt_mul_of_pos_right hmod128 (Nat.pos_pow_of_pos _ (by norm_num))
        rw [← Nat.pow_add] at h1
        have h2 : (2 : Nat) ^ (7 + p) ≤ 2 ^ 32 :=
          Nat.pow_le_pow_right (by norm_num) (by omega)
        norm_num at h2
        omega
      have hval : acc ||| ((v % 128 + 128) &&& 127) <<< p % 4294967296
          = acc + v % 128 * 2 ^ p := by
        rw [add_hi_and_127 (Nat.mod_lt _ (by norm_num)), Nat.shiftLeft_eq,
          Nat.mod_eq_of_lt hshiftlt, lor_mul_pow_eq_add hacc]
      have hacc2 : acc + v % 128 * 2 ^ p < 2 ^ (p + 7) := by
        have hm1 : v % 128 * 2 ^ p ≤ 127 * 2 ^ p :=
          Nat.mul_le_mul_right _ (by omega)
        have h2 : (2 : Nat) ^ (p + 7) = 128 * 2 ^ p := by
          rw [Nat.pow_add]
          ring
        omega
      have hltrec : v >>> 7 < 2 ^ (32 - (p + 7)) := by
        rw [Nat.shiftRight_eq_div_pow]
        refine (Nat.div_lt_iff_lt_mul (by positivity)).mpr ?_
        have h2 : (2 : Nat) ^ (32 - (p + 7)) * 2 ^ 7 = 2 ^ (32 - p) := by
          rw [← Nat.pow_add]
          congr 1
          omega
        rw [h2]
        exact hv
      have hrec := ih (v >>> 7)
        (by
          rw [Nat.shiftRight_eq_div_pow]
          exact Nat.div_lt_self (by omega) (by norm_num))
        (p + 7) (acc + v % 128 * 2 ^ p) rest (len + 1) (by omega) hltrec hacc2
      rw [if_neg hm, List.cons_append, readVarIntAux, bufRead_one_cons]
      simp only [List.headD_cons, hbyte]
      rw [if_neg handne, if_neg (show ¬ p + 7 ≥ 32 by omega), hval, hrec]
      have hvsplit : acc + v % 128 * 2 ^ p + v >>> 7 * 2 ^ (p + 7) = acc + v * 2 ^ p := by
        rw [Nat.shiftRight_eq_div_pow, Nat.pow_add]
        have h := Nat.div_add_mod v 128
        set q := v / 128
        set r := v % 128
        calc acc + r * 2 ^ p + q * (2 ^ p * 2 ^ 7)
            = acc + (128 * q + r) * 2 ^ p := by norm_num; ring
          _ = acc + v * 2 ^ p := by rw [h]
      rw [hvsplit]
      simp only [List.length_cons]
      norm_num
      ring

theorem writeVarIntBytes_length_le (k : Nat) :
    ∀ v, v < 2 ^ (7 * k + 7) → (writeVarIntBytes v).length ≤ k + 1 := by
  induction k with
  | zero =>
    intro v hv
    have hvl : v < 128 := by norm_num at hv; omega
    rw [writeVarIntBytes,
      if_pos ((and_hi_mask_eq_zero_iff (by omega)).mpr hvl)]
    simp
  | succ k ih =>
    intro v hv
    rw [writeVarIntBytes]
    by_cases hm : v &&& 0xFFFFFF80 = 0
    · rw [if_pos hm]
      simp
    · rw [if_neg hm]
      have hrec : v >>> 7 < 2 ^ (7 * k + 7) := by
        rw [Nat.shiftRight_eq_div_pow]
        refine (Nat.div_lt_iff_lt_mul (by positivity)).mpr ?_
        have h2 : 7 * k + 7 + 7 = 7 * (k + 1) + 7 := by ring
        rw [← Nat.pow_add, h2]
        exact hv
      have := ih (v >>> 7) hrec
      simp only [List.length_cons]
      omega


/-! Helper lemmas: the route map as an association list. -/

theorem mapLookup_append (m1 m2 : List (String × Route)) (k : String) :
    mapLookup (m1 ++ m2) k = (mapLookup m2 k).or (mapLookup m1 k) := by
  simp only [mapLookup, List.reverse_append, List.find?_append]
  cases m2.reverse.find? (fun p => p.1 = k) <;> simp

theorem mapLookup_singleton (key k : String) (r : Route) :
    mapLookup [(key, r)] k = if key = k then some r else none := by
  by_cases h : key = k <;> simp [mapLookup, h]

theorem foldl_insert_lookup (addrs : List String) (r : Route) :
    ∀ (m : List (String × Route)) (k : String),
      mapLookup (addrs.foldl (fun m addr => m ++ [(strToLower addr, r)]) m) k
        = if (addrs.map strToLower).contains k then some r else mapLookup m k := by
  induction addrs with
  | nil => intro m k; simp
  | cons a rest ih =>
    intro m k
    simp only [List.foldl_cons, ih, List.map_cons]
    by_cases h : (rest.map strToLower).contains k
    · have h2 : ∃ x ∈ rest, strToLower x = k := by simpa using h
      simp [h, h2, List.contains_cons]
    · simp only [h, if_false, mapLookup_append, mapLookup_singleton, List.contains_cons]
      by_cases h2 : strToLower a = k
      · simp [h2]
      · have h3 : ¬ (k == strToLower a) = true := by
          simp only [beq_iff_eq]
          exact fun he => h2 he.symm
        simp [h2, h3, h]

theorem insertRoute_lookup (m : List (String × Route)) (r : Route) (k : String) :
    mapLookup (insertRoute m r) k
      = if (r.Matches.map strToLower).contains k then some r else mapLookup m k :=
  foldl_insert_lookup r.Matches r m k

theorem gather_fold_lookup (routes : List Route) :
    ∀ (m : List (String × Route)) (d : Option Route) (key : String),
      mapLookup ((routes.foldl
        (fun acc route =>
          if route.Name = DefaultRouteName then (acc.1, some route)
          else (insertRoute acc.1 route, acc.2)) (m, d)).1) key
        = (specLastWinsLookup routes key).or (mapLookup m key) := by
  induction routes with
  | nil => intro m d key; simp [specLastWinsLookup]
  | cons r rest ih =>
    intro m d key
    have hspec : specLastWinsLookup (r :: rest) key
        = (specLastWinsLookup rest key).or
            (if !(r.Name == DefaultRouteName) && (r.Matches.map strToLower).contains key
             then some r else none) := by
      simp only [specLastWinsLookup, List.reverse_cons, List.find?_append]
      congr 1
      cases hb : (!(r.Name == DefaultRouteName) && (r.Matches.map strToLower).contains key) <;>
        rw [List.find?_cons, hb] <;> simp
    simp only [List.foldl_cons]
    by_cases hd : r.Name = DefaultRouteName
    · rw [if_pos hd]
      rw [ih m (some r) key, hspec]
      have hp : (!(r.Name == DefaultRouteName) && (r.Matches.map strToLower).contains key) = false := by
        simp [hd]
      rw [hp]
      cases specLastWinsLookup rest key <;> simp
    · rw [if_neg hd]
      rw [ih (insertRoute m r) d key, hspec]
      have hp : (!(r.Name == DefaultRouteName) && (r.Matches.map strToLower).contains key)
          = (r.Matches.map strToLower).contains key := by
        simp [hd]
      rw [hp, insertRoute_lookup]
      by_cases hc : (r.Matches.map strToLower).contains key
      · rw [if_pos hc, if_pos hc]
        cases specLastWinsLookup rest key <;> simp
      · rw [if_neg hc, if_neg hc]
        cases specLastWinsLookup rest key <;> simp


/-! Helper lemmas: hostname normalization. -/

theorem dropWhile_dot_replicate (k : Nat) (l : List Char) :
    List.dropWhile (fun c => c = '.') (List.replicate k '.' ++ l) =
      List.dropWhile (fun c => c = '.') l := by
  induction k with
  | zero => rfl
  | succ k ih => simp [List.replicate_succ, List.dropWhile, ih]

theorem trimRightDots_append_dots (h : String) (k : Nat) :
    trimRightDots (h ++ String.mk (List.replicate k '.')) = trimRightDots h := by
  unfold trimRightDots
  have hd : (h ++ String.mk (List.replicate k '.')).data
      = h.data ++ List.replicate k '.' := by
    simp [String.data_append]
  rw [hd, List.reverse_append, List.reverse_replicate, dropWhile_dot_replicate]

/-- C1: route lookup follows the priority order.  For every prepared
table and inbound (hostname, port), after the normalization RouteFor
performs on the hostname: a hit on the lowercased host:port key selects
that route (a host-only entry for the same hostname is not consulted);
otherwise a hit on the lowercased host key selects that route whatever
the port; otherwise the result is exactly the default route, so a route
is returned iff a default exists. -/
theorem routeFor_priority_order (cfg : Config) (hostname : String) (port : Nat) :
    (∀ r, mapLookup cfg.routeMap (strToLower (mkAddress (trimRightDots hostname) port)) = some r →
      RouteFor cfg hostname port = some r) ∧
    (mapLookup cfg.routeMap (strToLower (mkAddress (trimRightDots hostname) port)) = none →
      ∀ r, mapLookup cfg.routeMap (strToLower (trimRightDots hostname)) = some r →
        RouteFor cfg hostname port = some r) ∧
    (mapLookup cfg.routeMap (strToLower (mkAddress (trimRightDots hostname) port)) = none →
      mapLookup cfg.routeMap (strToLower (trimRightDots hostname)) = none →
        RouteFor cfg hostname port = cfg.defaultRoute) := by
  refine ⟨?_, ?_, ?_⟩
  · intro r h; simp [RouteFor, h]
  · intro h1 r h2; simp [RouteFor, h1, h2]
  · intro h1 h2; simp [RouteFor, h1, h2]

/-- Witness for C1 on a concrete table: the exact match (route A, listed
after route B) beats the host-only match for the same hostname, the
host-only match fires for another port, and an unknown hostname falls
back to the default route. -/
theorem routeFor_priority_order_witness :
    RouteFor cfgABD "mc.example.com" 25565 = some routeA ∧
    RouteFor cfgABD "Mc.Example.Com." 7777 = some routeB ∧
    RouteFor cfgABD "unknown" 25565 = some routeD :=
  ⟨(routeFor_priority_order cfgABD "mc.example.com" 25565).1 routeA (by decide),
   (routeFor_priority_order cfgABD "Mc.Example.Com." 7777).2.1 (by decide) routeB (by decide),
   ((routeFor_priority_order cfgABD "unknown" 25565).2.2 (by decide) (by decide)).trans
     (by decide)⟩

/-- C2: the claimed UTF-16BE round-trip law fails in the code.  The
writer WriteUTF16BE emits the BYTE length of the payload as the i16
prefix (2 for the one-character string A, whose encoding is the single
code unit 65), while the reader ReadUTF16BE interprets the prefix as a
CODE-UNIT count and reads prefix*2 bytes; reading back the bytes the
writer produced for A therefore asks for 4 payload bytes where only 2
exist and fails instead of returning A. -/
theorem utf16be_write_read_mismatch :
    utf16Encode "A" = [65] ∧
    writeUTF16BEBytes "A" = [0, 2, 0, 65] ∧
    readUTF16BE ⟨writeUTF16BEBytes "A", none, 0⟩ = .err := by decide

/-- C3 (amended): a forwarded legacy handshake is re-serialized in the
LEGACY wire form, not as a modern length-prefixed packet: WritePacket
dispatches a legacy value to LegacyServerListPingPacket.WriteTo, whose
output is the captured 27-byte magic header, an i16 byte length, and the
re-encoded body; in particular the bytes sent upstream start with the
legacy magic. -/
theorem writePacket_legacy_form (p : LegacyServerListPingPacket)
    (hhead : p.header = legacyServerPingHead) :
    (writePacketBytes (.legacy p)).take 27 = legacyServerPingHead ∧
    writePacketBytes (.legacy p) =
      p.header ++
      writeInt16Bytes (writeUInt8Bytes p.protocol ++ writeUTF16BEBytes p.hostname ++
        writeUInt32Bytes p.port).length ++
      (writeUInt8Bytes p.protocol ++ writeUTF16BEBytes p.hostname ++
        writeUInt32Bytes p.port) := by
  constructor
  · simp only [writePacketBytes, LegacyServerListPingPacket.writeToBytes, hhead,
      List.append_assoc]
    rw [show (27 : Nat) = legacyServerPingHead.length from rfl]
    exact List.take_left _ _
  · simp [writePacketBytes, LegacyServerListPingPacket.writeToBytes]

/-- Witness for C3 (amended) at the concrete parsed legacy packet: the
first 27 bytes written upstream are the legacy magic. -/
theorem writePacket_legacy_form_witness :
    (writePacketBytes (.legacy legacyPkt)).take 27 = legacyServerPingHead :=
  (writePacket_legacy_form legacyPkt rfl).1

/-- Counterexample to C3 as stated: for the legacy handshake for
example.com:25565, WritePacket emits exactly the legacy re-serialization
(whose first byte is the legacy magic 0xFE), and those bytes are not a
modern length-prefixed handshake: parsing them as a modern packet
fails. -/
theorem writePacket_legacy_reserialized_cex :
    writePacketBytes (.legacy legacyPkt)
      = LegacyServerListPingPacket.writeToBytes legacyPkt ∧
    (writePacketBytes (.legacy legacyPkt)).headD 0 = legacyHandshakeMagic ∧
    readModernHandshake ⟨writePacketBytes (.legacy legacyPkt), none, 0⟩ = .err := by
  refine ⟨rfl, by decide, ?_⟩
  simp [readModernHandshake, readVarInt, readVarIntAux, bufRead, rawRead, toInt32,
    writePacketBytes, LegacyServerListPingPacket.writeToBytes, writeUInt8Bytes,
    writeUTF16BEBytes, writeInt16Bytes, writeUInt16Bytes, writeUInt32Bytes,
    utf16Encode, utf16EncodeChar, legacyPkt, legacyServerPingHead]
  decide

/-- C4 (amended): for preamble versions 1 and 2, matching IPv4 endpoints
yield a TCPv4 header and matching IPv6 endpoints a TCPv6 header, but
when the two address families DIFFER the code still builds a header --
with the zero-value transport protocol UNSPEC -- and attempts to write
it to the upstream; the mismatch is only logged. -/
theorem preambleHeader_families (v : Nat) (c4 t4 : Bool)
    (h1 : 1 ≤ v) (h2 : v ≤ 2) :
    (c4 = true → t4 = true →
      preambleHeader v c4 t4 = some ⟨v, .TCPv4⟩) ∧
    (c4 = false → t4 = false →
      preambleHeader v c4 t4 = some ⟨v, .TCPv6⟩) ∧
    (c4 ≠ t4 →
      preambleHeader v c4 t4 = some ⟨v, .UNSPEC⟩) := by
  refine ⟨?_, ?_, ?_⟩
  · intro hc ht; subst hc; subst ht; simp [preambleHeader, h1, h2]
  · intro hc ht; subst hc; subst ht; simp [preambleHeader, h1, h2]
  · intro hne; cases c4 <;> cases t4 <;> simp_all [preambleHeader, h1, h2]

/-- Witness for C4 (amended) at concrete versions and families. -/
theorem preambleHeader_families_witness :
    preambleHeader 1 true true = some ⟨1, .TCPv4⟩ ∧
    preambleHeader 2 false false = some ⟨2, .TCPv6⟩ ∧
    preambleHeader 2 true false = some ⟨2, .UNSPEC⟩ :=
  ⟨(preambleHeader_families 1 true true (by decide) (by decide)).1 rfl rfl,
   (preambleHeader_families 2 false false (by decide) (by decide)).2.1 rfl rfl,
   (preambleHeader_families 2 true false (by decide) (by decide)).2.2 (by decide)⟩

/-- Counterexample to C4 as stated: with preamble version 1, an IPv6
client and an IPv4 upstream, the claim says no preamble header write
happens at all, but the code still produces a header (with transport
UNSPEC) whose write to the upstream is attempted. -/
theorem preamble_mixed_family_cex :
    preambleHeader 1 false true = some ⟨1, .UNSPEC⟩ ∧
    preambleHeader 1 false true ≠ none := by decide

/-- C5: a disconnect packet is written only when the handshake is the
modern variant, its next-state equals the login discriminator 2, and the
precomputed message JSON is non-empty; on both the reject path and the
dial-failure path every other case silently skips emission, and the
client connection is closed in every case. -/
theorem disconnect_emission_gating (pkt : IHandshakePacket) (route : Route) :
    ((rejectPathOutcome pkt route).sentPacket ≠ none ↔
      ∃ p, pkt = .modern p ∧ p.nextState = HandshakeNextStateLogin ∧
        route.rejectMessageJson ≠ "") ∧
    ((dialFailPathOutcome pkt route).sentPacket ≠ none ↔
      ∃ p, pkt = .modern p ∧ p.nextState = HandshakeNextStateLogin ∧
        route.dialFailMessageJson ≠ "") ∧
    (rejectPathOutcome pkt route).clientClosed = true ∧
    (dialFailPathOutcome pkt route).clientClosed = true := by
  cases pkt with
  | modern p =>
    refine ⟨?_, ?_, ?_, ?_⟩ <;>
      simp [rejectPathOutcome, dialFailPathOutcome, disconnectWithMessage] <;>
      by_cases h1 : p.nextState = HandshakeNextStateLogin <;>
      by_cases h2 : route.rejectMessageJson = "" <;>
      by_cases h3 : route.dialFailMessageJson = "" <;>
      simp [h1, h2, h3]
  | legacy p =>
    simp [rejectPathOutcome, dialFailPathOutcome, disconnectWithMessage]

/-- Witness for C5: for the concrete modern login handshake and reject
route, a packet is emitted; the outcome also shows the client closed. -/
theorem disconnect_emission_gating_witness :
    (rejectPathOutcome (.modern modernPkt) routeR).sentPacket ≠ none ∧
    (rejectPathOutcome (.legacy legacyPkt) routeR).sentPacket = none ∧
    (rejectPathOutcome (.legacy legacyPkt) routeR).clientClosed = true :=
  ⟨(disconnect_emission_gating (.modern modernPkt) routeR).1.mpr
     ⟨modernPkt, rfl, by decide, by decide⟩,
   by decide,
   (disconnect_emission_gating (.legacy legacyPkt) routeR).2.2.1⟩

/-- C6 (amended): RouteFor strips ALL trailing dots from the inbound
hostname (strings.TrimRight with cutset dot), then lowercases; appending
any number of trailing dots to a hostname never changes the selected
route, so the single-trailing-dot examples of the specification hold,
but a hostname ending in several dots loses all of them rather than all
but one. -/
theorem routeFor_ignores_all_trailing_dots (cfg : Config) (h : String)
    (p k : Nat) :
    RouteFor cfg (h ++ String.mk (List.replicate k '.')) p = RouteFor cfg h p := by
  simp only [RouteFor, trimRightDots_append_dots]

/-- Counterexample to C6 as stated: the table built from a route whose
host-only match is the literal key a. (dot included).  Per the claim,
looking up hostname a.. strips exactly one dot, producing a., which is
present in the map, so a route would be selected; the code strips both
dots, looks up a, finds nothing and returns no route. -/
theorem trailing_dot_normalization_cex :
    specStripOneTrailingDot "a.." = "a." ∧
    mapLookup cfgDot.routeMap (strToLower (specStripOneTrailingDot "a..")) = some routeDot ∧
    trimRightDots "a.." = "a" ∧
    RouteFor cfgDot "a.." 25565 = none := by decide

/-- C7: the var-int codec round-trips every value in [0, 2^31): reading
back the bytes written for v yields v with the whole encoding consumed,
and the encoding is minimal-length: one byte for v below 128, two bytes
for v in [128, 2^14), and never more than five bytes. -/
theorem varint_roundtrip_and_lengths (v : Nat) (hv : v < 2 ^ 31) :
    readVarInt ⟨writeVarIntBytes v, none, 0⟩
      = .ok (v, ⟨[], none, ((writeVarIntBytes v).length : Int)⟩) ∧
    (v < 128 → (writeVarIntBytes v).length = 1) ∧
    (128 ≤ v → v < 2 ^ 14 → (writeVarIntBytes v).length = 2) ∧
    (writeVarIntBytes v).length ≤ 5 := by
  have hv32 : v < 2 ^ 32 := by norm_num at hv ⊢; omega
  refine ⟨?_, ?_, ?_, ?_⟩
  · have h := readVarIntAux_writeVarIntBytes v 0 0 [] 0 (by norm_num)
      (by norm_num at hv32 ⊢; omega) (by norm_num)
    rw [List.append_nil] at h
    simpa [readVarInt] using h
  · intro h
    rw [writeVarIntBytes, if_pos ((and_hi_mask_eq_zero_iff hv32).mpr h)]
    simp
  · intro h1 h2
    have hm1 : ¬ v &&& 0xFFFFFF80 = 0 := fun h =>
      absurd ((and_hi_mask_eq_zero_iff hv32).mp h) (by omega)
    rw [writeVarIntBytes, if_neg hm1]
    have hq : v >>> 7 < 128 := by
      rw [Nat.shiftRight_eq_div_pow]
      norm_num at h2 ⊢
      omega
    have hq32 : v >>> 7 < 2 ^ 32 := by omega
    rw [writeVarIntBytes, if_pos ((and_hi_mask_eq_zero_iff hq32).mpr hq)]
    simp
  · have h := writeVarIntBytes_length_le 4 v (by norm_num at hv ⊢; omega)
    omega

/-- Witness for C7 at v = 300, which lies in the two-byte band. -/
theorem varint_roundtrip_and_lengths_witness :
    300 < 2 ^ 31 ∧
    (readVarInt ⟨writeVarIntBytes 300, none, 0⟩
      = .ok (300, ⟨[], none, ((writeVarIntBytes 300).length : Int)⟩) ∧
    (300 < 128 → (writeVarIntBytes 300).length = 1) ∧
    (128 ≤ 300 → 300 < 2 ^ 14 → (writeVarIntBytes 300).length = 2) ∧
    (writeVarIntBytes 300).length ≤ 5) :=
  ⟨by norm_num, varint_roundtrip_and_lengths 300 (by norm_num)⟩

/-- C8: target resolution.  A target containing a colon is returned
verbatim; otherwise a successful non-empty SRV answer yields
target:port of its first record, while an SRV error or an empty answer
falls back to the configured target with port 25565; and the function
never returns an error to its caller whatever the lookup outcome. -/
theorem resolveTarget_behavior (route : Route)
    (lookup : Except String (List SrvRecord)) :
    (route.Target.data.contains ':' = true →
      resolveTarget route lookup = .ok route.Target) ∧
    (route.Target.data.contains ':' = false →
      ∀ rec recs, lookup = .ok (rec :: recs) →
        resolveTarget route lookup = .ok (rec.target ++ ":" ++ toString rec.port)) ∧
    (route.Target.data.contains ':' = false → lookup = .ok [] →
      resolveTarget route lookup = .ok (route.Target ++ ":25565")) ∧
    (route.Target.data.contains ':' = false → ∀ e, lookup = .error e →
      resolveTarget route lookup = .ok (route.Target ++ ":25565")) ∧
    ∃ result, resolveTarget route lookup = .ok result := by
  refine ⟨?_, ?_, ?_, ?_, ?_⟩
  · intro h; simp at h; simp [resolveTarget, h]
  · intro h rec recs hl; simp at h; simp [resolveTarget, ResolveSrv, h, hl]
  · intro h hl; simp at h; simp [resolveTarget, ResolveSrv, h, hl]
  · intro h e hl; simp at h; simp [resolveTarget, ResolveSrv, h, hl]
  · by_cases h : route.Target.data.contains ':'
    · simp at h; exact ⟨route.Target, by simp [resolveTarget, h]⟩
    · simp at h
      match hl : lookup with
      | .error e =>
        exact ⟨route.Target ++ ":25565", by simp [resolveTarget, ResolveSrv, h]⟩
      | .ok [] =>
        exact ⟨route.Target ++ ":25565", by simp [resolveTarget, ResolveSrv, h]⟩
      | .ok (rec :: recs) =>
        exact ⟨rec.target ++ ":" ++ toString rec.port,
          by simp [resolveTarget, ResolveSrv, h]⟩

/-- Witness for C8: a ported target is returned verbatim; a portless
target follows the first SRV record, and falls back to port 25565 on an
empty answer or a lookup error. -/
theorem resolveTarget_behavior_witness :
    resolveTarget routePort (.ok []) = .ok "10.0.0.1:25570" ∧
    resolveTarget routeSrv (.ok [⟨"mc1.example.org", 25566⟩])
      = .ok "mc1.example.org:25566" ∧
    resolveTarget routeSrv (.ok []) = .ok "svc.example.org:25565" ∧
    resolveTarget routeSrv (.error "lookup timeout") = .ok "svc.example.org:25565" :=
  ⟨((resolveTarget_behavior routePort (.ok [])).1 (by decide)).trans rfl,
   ((resolveTarget_behavior routeSrv (.ok [⟨"mc1.example.org", 25566⟩])).2.1
      (by decide) ⟨"mc1.example.org", 25566⟩ [] rfl).trans rfl,
   ((resolveTarget_behavior routeSrv (.ok [])).2.2.1 (by decide) rfl).trans rfl,
   ((resolveTarget_behavior routeSrv (.error "lookup timeout")).2.2.2.1
      (by decide) "lookup timeout" rfl).trans rfl⟩

/-- C9: the claim that the handshake parse path never aborts the process
fails in the code.  The five-byte stream FF FF FF FF 0F is the minimal
var-int encoding of the int32 value -1; ReadHandshakePacket peeks 0xFF
(not the legacy magic), takes the modern path, decodes the packet length
-1, and then executes Read(int(-1)), where the Go expression
make([]byte, n) panics and, with no recover handler on the connection
goroutine, brings down the whole process. -/
theorem handshake_negative_length_crash :
    readVarInt ⟨[0xFF, 0xFF, 0xFF, 0xFF, 0x0F], none, 0⟩
      = .ok (4294967295, ⟨[], none, 5⟩) ∧
    toInt32 4294967295 = -1 ∧
    readHandshakePacket ⟨[0xFF, 0xFF, 0xFF, 0xFF, 0x0F], none, 0⟩ = .crash ∧
    readString ⟨[0xFF, 0xFF, 0xFF, 0xFF, 0x0F], none, 0⟩ = .crash := by
  refine ⟨?_, by decide, ?_, ?_⟩
  · simp [readVarInt, readVarIntAux, bufRead, rawRead]
    decide
  · simp [readHandshakePacket, bufPeekByte, rawRead, readModernHandshake, readVarInt,
      readVarIntAux, bufRead, legacyHandshakeMagic, toInt32]
    decide
  · simp [readString, readVarInt, readVarIntAux, bufRead, rawRead, toInt32]
    decide

/-- C10: route-table preparation is deterministic with last-wins
semantics.  For every configured route list and every key, the lookup in
the prepared match map equals the latest (in configuration order)
non-default route one of whose lowercased match strings is the key; in
particular a duplicated key is bound to the route listed last, and
inserting the duplicate affects no other key. -/
theorem routeMap_last_wins (routes : List Route) (key : String) :
    mapLookup (Config.init routes).routeMap key = specLastWinsLookup routes key := by
  have h := gather_fold_lookup routes [] none key
  simp only [Config.init, gatherRoutes] at h ⊢
  rw [h]
  cases specLastWinsLookup routes key <;> simp [mapLookup]
